import Mathlib

/-
Verification of the math quiz application `math_pdf_quiz_v2.py`.

The development shallowly embeds the program's data model and operations:
 * Python scalar values appearing in pandas cells (`PyValue`), together with
   `pd.isna`, `str(...)` and the program's `as_str` canonicalizer;
 * the string utilities the program relies on (`str.strip`, `str.startswith`,
   `str.replace`, `in`-substring tests, `int(...)` parsing, `str.isdigit`),
   implemented over `List Char` by structural recursion so that every
   definition evaluates inside the kernel;
 * `seconds_to_hms`, the answer-key loader `load_answer_csv`, the column
   normalization and `available_ids` computation, the asset resolver
   (`find_files` plus the `problem_paths` / `solution_paths` classification),
   the session state machine driven by the `render_*` handlers, and the
   end-screen CSV export.

Timestamps are modeled at whole-second granularity (`Int`): the program reads
`time.time()` as a float and immediately truncates differences with `int(...)`,
and no claim distinguishes sub-second instants, so on integer-valued times the
truncation is the identity.
-/

/-- A scalar value held in a pandas cell. `na` stands for the missing values
recognized by `pd.isna` (NaN, None, pd.NA). Floats are represented by the exact
rational value they denote, carried as a numerator/denominator pair in lowest
terms (every IEEE float is such a rational; `is_integer` and `int(...)` act on
that exact value). -/
inductive PyValue where
  | na : PyValue
  | float (num : Int) (den : Nat) : PyValue
  | str (s : String) : PyValue
  | int (n : Int) : PyValue
  deriving DecidableEq

/-- `pd.isna`: true exactly on missing values. -/
def pd_isna : PyValue → Bool
  | .na => true
  | _ => false

/-- Python's `str(...)` on cell values, as used by `astype(str)` and `str(x)`.
`str` of a NaN cell is `"nan"` (the pandas `astype(str)` rendering; `None` and
`pd.NA` print differently, but no claim depends on which missing value occurs).
An integer-valued float prints with a trailing `".0"`; for a non-integer float
we print `num/den`, a placeholder textual form — Python prints a decimal
expansion, but no claim depends on that form. -/
def pyStr : PyValue → String
  | .na => "nan"
  | .float n d => if d = 1 then toString n ++ ".0" else toString n ++ "/" ++ toString d
  | .str s => s
  | .int n => toString n

/-- `as_str` (source lines 36–41): missing → `""`; a float with zero fractional
part → `str(int(x))`, i.e. the numerator when the denominator is 1; anything
else → `str(x)`. -/
def as_str (x : PyValue) : String :=
  if pd_isna x then ""
  else
    match x with
    | .float n d => if d = 1 then toString n else pyStr (.float n d)
    | v => pyStr v

/-- The whitespace characters stripped by Python's `str.strip()` /
`int(...)` (the characters on which `str.isspace()` is true). -/
def isPySpace (c : Char) : Bool :=
  c = ' ' || c = '\t' || c = '\n' || c = '\x0b' || c = '\x0c' || c = '\r' ||
  c = '\x1c' || c = '\x1d' || c = '\x1e' || c = '\x1f' || c = '\x85' ||
  c = '\xa0' || c = ' ' ||
  (' ' ≤ c && c ≤ ' ') ||
  c = ' ' || c = ' ' || c = ' ' || c = ' ' || c = '　'

/-- Drop the trailing characters on which `p` holds (the right half of
`str.strip`), by structural recursion. -/
def dropTrailWhile (p : Char → Bool) : List Char → List Char
  | [] => []
  | a :: t =>
    let r := dropTrailWhile p t
    if r = [] && p a then [] else a :: r

/-- `str.strip()` on the character list: drop leading and trailing
whitespace. -/
def stripChars (l : List Char) : List Char :=
  dropTrailWhile isPySpace (l.dropWhile isPySpace)

/-- Python's `str.strip()`. -/
def pyStrip (s : String) : String :=
  ⟨stripChars s.data⟩

/-- `a.startswith b` on character lists. -/
def listStartsWith : List Char → List Char → Bool
  | _, [] => true
  | [], _ :: _ => false
  | a :: s, b :: t => a = b && listStartsWith s t

/-- Python's `str.startswith`. -/
def pyStartsWith (s pat : String) : Bool :=
  listStartsWith s.data pat.data

/-- Python's substring containment `pat in s`, on character lists. -/
def listContains : List Char → List Char → Bool
  | [], pat => listStartsWith [] pat
  | a :: t, pat => listStartsWith (a :: t) pat || listContains t pat

/-- Python's `pat in s` for strings. -/
def pyContains (s pat : String) : Bool :=
  listContains s.data pat.data

/-- One fuel-indexed pass of `str.replace(pat, "")`-style global replacement:
at each position, if `pat` matches, emit `repl` and skip the match, otherwise
emit one character. The fuel is the length of the list, which bounds the number
of steps since each step consumes at least one character (`pat` is nonempty in
every use site). -/
def replaceChars (pat repl : List Char) : Nat → List Char → List Char
  | 0, l => l
  | _ + 1, [] => []
  | fuel + 1, a :: t =>
    if listStartsWith (a :: t) pat && pat ≠ [] then
      repl ++ replaceChars pat repl fuel ((a :: t).drop pat.length)
    else
      a :: replaceChars pat repl fuel t

/-- Python's `s.replace(pat, repl)` (global replacement). -/
def pyReplace (s pat repl : String) : String :=
  ⟨replaceChars pat.data repl.data s.data.length s.data⟩

/-- `pathlib.Path(...).stem` for a plain file name: the name with the final
`.suffix` removed (the whole name when it contains no dot). -/
def stemChars (l : List Char) : List Char :=
  match l.reverse.dropWhile (fun c => c ≠ '.') with
  | [] => l
  | _ :: rest => rest.reverse

/-- The stem of a file name. -/
def pyStem (s : String) : String :=
  ⟨stemChars s.data⟩

/-- `str.isdigit` restricted to ASCII decimal digits: true iff the string is
nonempty and every character is `0`–`9`. (Python's `isdigit` also accepts some
non-ASCII digit characters; those never arise in the claims.) -/
def str_isdigit (s : String) : Bool :=
  s.data ≠ [] && s.data.all Char.isDigit

/-- The numeric value of a string of ASCII digits. -/
def digitsVal (l : List Char) : Nat :=
  l.foldl (fun a c => a * 10 + (c.toNat - 48)) 0

/-- The digit core accepted by Python's `int(...)`: one or more ASCII digits,
with single underscores allowed between digits. -/
def digitsWithUnderscores : List Char → Bool
  | [] => false
  | [c] => c.isDigit
  | c :: '_' :: t => c.isDigit && digitsWithUnderscores t
  | c :: d :: t => c.isDigit && digitsWithUnderscores (d :: t)

/-- Python's `int(string)`: strip whitespace, allow an optional sign, then
require a digit core; `none` models the `ValueError` raised otherwise. -/
def pyIntOfString (s : String) : Option Int :=
  match stripChars s.data with
  | '+' :: rest =>
      if digitsWithUnderscores rest then some (digitsVal (rest.filter (· ≠ '_'))) else none
  | '-' :: rest =>
      if digitsWithUnderscores rest then some (-(digitsVal (rest.filter (· ≠ '_')) : Int)) else none
  | rest =>
      if digitsWithUnderscores rest then some (digitsVal (rest.filter (· ≠ '_'))) else none

/-- Lexicographic comparison of character lists by code point, as `sorted`
orders file names. -/
def charsLe : List Char → List Char → Bool
  | [], _ => true
  | _ :: _, [] => false
  | a :: s, b :: t => if a = b then charsLe s t else a < b

/-- Insert one string into a lexicographically sorted list (used to model
`sorted(...)` on file names). -/
def insertStringSorted (x : String) : List String → List String
  | [] => [x]
  | y :: t => if charsLe x.data y.data then x :: y :: t else y :: insertStringSorted x t

/-- `sorted(...)` on strings via insertion sort. -/
def sortStrings (l : List String) : List String :=
  l.foldr insertStringSorted []

/-- Insert a natural number into a sorted duplicate-free list, keeping it
sorted and duplicate-free (used to model `sorted({...})`). -/
def insertNatSorted (n : Nat) : List Nat → List Nat
  | [] => [n]
  | m :: t =>
    if n < m then n :: m :: t
    else if n = m then m :: t
    else m :: insertNatSorted n t

/-- `sorted(set(...))` on natural numbers. -/
def sortedDedup (l : List Nat) : List Nat :=
  l.foldr insertNatSorted []

/-- `seconds_to_hms` (source lines 43–50): clamp to zero, split into hours,
minutes and seconds, and format as `H時間M分S秒` when the hour count is
nonzero, else `M分S秒`. -/
def seconds_to_hms (sec : Int) : String :=
  let s0 := (max 0 sec).toNat
  let h := s0 / 3600
  let m := (s0 % 3600) / 60
  let s := s0 % 60
  if h ≠ 0 then
    toString h ++ "時間" ++ toString m ++ "分" ++ toString s ++ "秒"
  else
    toString m ++ "分" ++ toString s ++ "秒"

/-- The total number of seconds represented by the rendered components of
`seconds_to_hms` on a non-negative count. -/
def hms_total (s : Nat) : Nat :=
  (s / 3600) * 3600 + ((s % 3600) / 60) * 60 + s % 60

/-- The encodings tried by `load_answer_csv` (source line 56), in order. -/
def encodings : List String :=
  ["utf-8-sig", "utf-8", "cp932", "shift-jis"]

/-- A path is prioritized when its stem contains `解答` or `answer`
(source line 54). -/
def is_answer_key_name (p : String) : Bool :=
  pyContains (pyStem p) "解答" || pyContains (pyStem p) "answer"

/-- The path order used by the loader: prioritized paths first, then the
remaining candidates in their original order (source line 55). -/
def ordered_paths (csv_paths : List String) : List String :=
  csv_paths.filter is_answer_key_name ++ csv_paths.filter (fun p => !is_answer_key_name p)

/-- The inner loop of `load_answer_csv`: try each path with a fixed encoding,
returning the first `(path, encoding)` whose parse does not raise. `parses`
abstracts `pd.read_csv` succeeding on a given path and encoding. -/
def try_paths (parses : String → String → Bool) (enc : String) :
    List String → Option (String × String)
  | [] => none
  | p :: rest => if parses p enc then some (p, enc) else try_paths parses enc rest

/-- The outer loop of `load_answer_csv`: iterate over the encodings in order,
trying every candidate path with each before moving to the next encoding. -/
def try_encodings (parses : String → String → Bool) (paths : List String) :
    List String → Option (String × String)
  | [] => none
  | e :: rest =>
    match try_paths parses e paths with
    | some r => some r
    | none => try_encodings parses paths rest

/-- `load_answer_csv` (source lines 52–64): the first `(path, encoding)` pair,
in encoding-major order over the prioritized path list, whose parse succeeds;
`none` when every combination fails. -/
def load_answer_csv (parses : String → String → Bool) (csv_paths : List String) :
    Option (String × String) :=
  try_encodings parses (ordered_paths csv_paths) encodings

/-- The startup check on the loader result (source lines 117–120): a `none`
result halts the session with a user-visible error instead of crashing. -/
def load_answer_csv_or_stop (parses : String → String → Bool) (csv_paths : List String) :
    Except String (String × String) :=
  match load_answer_csv parses csv_paths with
  | some r => Except.ok r
  | none => Except.error "CSVファイルが見つかりません（例：数学解答_見本.csv）。"

/-- One raw CSV row after the required columns are supplemented with `pd.NA`
(source lines 123–125): タイトル, ID, 小問, 問題レベル, 答え, 解説動画. -/
structure CsvRow where
  title : PyValue
  id : PyValue
  sub : PyValue
  level : PyValue
  answer : PyValue
  video : PyValue
  deriving DecidableEq

/-- A row after the column normalization of source lines 126–128: `ID` and
`小問` coerced with `astype(str)`, `答え` canonicalized with `as_str`. -/
structure NRow where
  title : PyValue
  id : String
  sub : String
  level : PyValue
  answer : String
  video : PyValue
  deriving DecidableEq

/-- The column normalization applied to each row (source lines 126–128). -/
def normalize_row (r : CsvRow) : NRow :=
  { title := r.title, id := pyStr r.id, sub := pyStr r.sub,
    level := r.level, answer := as_str r.answer, video := r.video }

/-- The `ID` column after `astype(str)`. -/
def id_strings (rows : List CsvRow) : List String :=
  rows.map (fun r => pyStr r.id)

/-- `available_ids` (source line 130): the sorted set of `int(x)` over the
all-digit ID strings. -/
def available_ids_of (rows : List CsvRow) : List Nat :=
  sortedDedup (((id_strings rows).filter str_isdigit).map (fun s => digitsVal s.data))

/-- The startup check on `available_ids` (source lines 131–133): an empty list
halts the session with a user-visible error instead of crashing. -/
def ids_or_stop (rows : List CsvRow) : Except String (List Nat) :=
  if available_ids_of rows = [] then Except.error "CSVのIDが不正です。"
  else Except.ok (available_ids_of rows)

/-- The extensions globbed for display assets (source line 114). -/
def image_exts : List String :=
  [".png", ".jpg", ".jpeg"]

/-- `str.endswith`, used to model which names `glob("*" + ext)` matches. -/
def pyEndsWith (s pat : String) : Bool :=
  listStartsWith s.data.reverse pat.data.reverse

/-- `find_files` (source lines 29–34): for each extension in order, the
lexicographically sorted names in the directory matching `*ext`, concatenated. -/
def find_files (dir : List String) (exts : List String) : List String :=
  (exts.map (fun ext => sortStrings (dir.filter (fun n => pyEndsWith n ext)))).flatten

/-- Dictionary assignment `m[k] = v`: the new binding shadows any earlier
binding of `k` (later assignments win). -/
def dictInsert {κ α : Type} [DecidableEq κ] (k : κ) (v : α) (m : List (κ × α)) :
    List (κ × α) :=
  (k, v) :: m.filter (fun e => e.1 ≠ k)

/-- One iteration of the asset classification loop (source lines 138–149):
`問題`-prefixed stems go to the problem map, otherwise `解答`/`解説`-prefixed
stems go to the solution map, keyed by `int` of the stem with the prefix tokens
removed; a failing `int(...)` is silently skipped. -/
def resolve_step (maps : List (Int × String) × List (Int × String)) (p : String) :
    List (Int × String) × List (Int × String) :=
  let name := pyStem p
  if pyStartsWith name "問題" then
    match pyIntOfString (pyReplace name "問題" "") with
    | some k => (dictInsert k p maps.1, maps.2)
    | none => maps
  else if pyStartsWith name "解答" || pyStartsWith name "解説" then
    match pyIntOfString (pyReplace (pyReplace name "解答" "") "解説" "") with
    | some k => (maps.1, dictInsert k p maps.2)
    | none => maps
  else maps

/-- The asset maps built from a list of image paths. -/
def build_asset_maps (paths : List String) :
    List (Int × String) × List (Int × String) :=
  paths.foldl resolve_step ([], [])

/-- The image files scanned in a directory (source line 114). -/
def image_paths_of (dir : List String) : List String :=
  find_files dir image_exts

/-- `problem_paths` for a directory listing. -/
def problem_paths_of (dir : List String) : List (Int × String) :=
  (build_asset_maps (image_paths_of dir)).1

/-- `solution_paths` for a directory listing. -/
def solution_paths_of (dir : List String) : List (Int × String) :=
  (build_asset_maps (image_paths_of dir)).2

/-- A file that the loop classifies as the problem asset for id `k`. -/
def is_problem_asset (k : Int) (p : String) : Bool :=
  pyStartsWith (pyStem p) "問題" &&
  pyIntOfString (pyReplace (pyStem p) "問題" "") == some k

/-- A file that the loop classifies as the solution asset for id `k`
(the `elif` branch: not `問題`-prefixed). -/
def is_solution_asset (k : Int) (p : String) : Bool :=
  !pyStartsWith (pyStem p) "問題" &&
  (pyStartsWith (pyStem p) "解答" || pyStartsWith (pyStem p) "解説") &&
  (pyIntOfString (pyReplace (pyReplace (pyStem p) "解答" "") "解説" "") == some k)

/-- One `AnswerRecord`, the dictionary stored in `ss.answers[(ID, 小問)]`.
Field names romanize the Japanese keys: `inp` = 入力, `correct` = 正解,
`verdict` = 判定, `per_sec` = 経過秒, `total_sec` = 累計秒, `level` = 難易度,
`title` = タイトル. Absent dictionary keys are modeled by the defaults of
`defaultRec`, matching the `.get(key, default)` reads in the source. -/
structure AnsRec where
  inp : String
  correct : String
  verdict : String
  per_sec : Int
  total_sec : Int
  level : String
  title : String
  deriving DecidableEq

/-- The record read for a key that is absent, per the `.get` defaults. -/
def defaultRec : AnsRec :=
  { inp := "", correct := "", verdict := "", per_sec := 0, total_sec := 0,
    level := "", title := "" }

/-- The screen phases (source line 155). -/
inductive Phase where
  | problem
  | solution
  | explain
  | end_
  deriving DecidableEq

/-- The session state (source lines 154–161). -/
structure SessState where
  phase : Phase
  current_id_idx : Int
  start_time : Int
  problem_start_time : Int
  answers : List ((String × String) × AnsRec)
  graded : Bool
  user_name : String
  deriving DecidableEq

/-- The read-only lookup tables built at startup: the normalized answer rows
and `available_ids`. -/
structure QuizConfig where
  rows : List NRow
  available_ids : List Nat
  deriving DecidableEq

/-- The defaults installed by `ss.setdefault` at session start (source lines
155–161); a fresh session started at time `t`. -/
def initState (t : Int) : SessState :=
  { phase := Phase.problem, current_id_idx := 0, start_time := t,
    problem_start_time := t, answers := [], graded := false, user_name := "" }

/-- `get_current_id` (source lines 182–185). -/
def get_current_id (cfg : QuizConfig) (s : SessState) : Option Nat :=
  if s.current_id_idx < 0 || (cfg.available_ids.length : Int) ≤ s.current_id_idx then none
  else cfg.available_ids[s.current_id_idx.toNat]?

/-- Stable insertion of a row into a list sorted by the `小問` string. -/
def insertRowSorted (r : NRow) : List NRow → List NRow
  | [] => [r]
  | x :: t => if charsLe r.sub.data x.sub.data then r :: x :: t else x :: insertRowSorted r t

/-- Sort rows by their `小問` string. -/
def sortRowsBySub (l : List NRow) : List NRow :=
  l.foldr insertRowSorted []

/-- `rows_for_id` (source lines 187–191): the rows whose `ID` equals `str(i)`,
sorted by the `小問` string. -/
def rows_for_id (rows : List NRow) (i : Nat) : List NRow :=
  sortRowsBySub (rows.filter (fun r => r.id = toString i))

/-- The key `(str(i), as_str(r["小問"]))` under which a sub-question row is
stored. -/
def row_key (i : Nat) (r : NRow) : String × String :=
  (toString i, as_str (.str r.sub))

/-- `ss.answers.get(key, {}).get("入力", "")`. -/
def stored_input (answers : List ((String × String) × AnsRec)) (k : String × String) :
    String :=
  ((List.lookup k answers).getD defaultRec).inp

/-- The record written by one iteration of the grading loop (source lines
278–290): the stripped user input, the stripped canonical correct answer, the
verdict from exact string equality, and the two elapsed-time snapshots. -/
def graded_record (r : NRow) (inp0 : String) (per total : Int) : AnsRec :=
  let user_inp := pyStrip inp0
  let correct := pyStrip (as_str (.str r.answer))
  { inp := user_inp, correct := correct,
    verdict := if user_inp = correct then "正解！" else "不正解",
    per_sec := per, total_sec := total,
    level := as_str r.level, title := as_str r.title }

/-- The grading loop (source lines 278–290): for each sub-question row of the
current id, read the stored input (from the map as mutated so far, as the
source does), and overwrite the record wholesale. -/
def grade_rows (i : Nat) (rows : List NRow) (per total : Int)
    (answers : List ((String × String) × AnsRec)) :
    List ((String × String) × AnsRec) :=
  rows.foldl
    (fun acc r =>
      dictInsert (row_key i r) (graded_record r (stored_input acc (row_key i r)) per total) acc)
    answers

/-- The user interactions that drive one script run: the six buttons, the
restart button, typing into a sub-question input box, typing into the name
box, and a run with no relevant interaction. -/
inductive UserAction where
  | answer_entry
  | skip
  | grade
  | back
  | to_explain
  | next_problem
  | restart
  | set_input (k : String × String) (v : String)
  | set_name (v : String)
  | idle
  deriving DecidableEq

/-- One step of the session state machine: the effect of one script run of the
router (source lines 226–387) on the session state, at time `t`, given the
interaction of that run.

* `problem` (lines 226–243): `解答記入` moves to `solution`, `問題パス` moves
  to `explain`; the timer is not touched.
* `solution` (lines 245–314): typing merges the raw widget value into the
  record's 入力 field; `採点` grades every row of the current id and sets
  `graded` (no phase change); `◀ 問題に戻る` and `解説へ ▶` only change phase.
* `explain` (lines 316–340): when more ids remain, `次の問題へ ▶` advances the
  index, resets `problem_start_time` to now and clears `graded`; when no ids
  remain the render itself moves to `end_` regardless of interaction — the
  index is never incremented past the last position.
* `end_` (lines 342–369): typing sets `user_name`; `はじめから` clears the
  whole session, which the following run re-initializes to `initState t`.

The function is total: no branch raises. -/
def step (cfg : QuizConfig) (s : SessState) (t : Int) (a : UserAction) : SessState :=
  match s.phase with
  | .problem =>
    match a with
    | .answer_entry => { s with phase := Phase.solution }
    | .skip => { s with phase := Phase.explain }
    | _ => s
  | .solution =>
    match a with
    | .set_input k v =>
      { s with answers :=
          dictInsert k { (List.lookup k s.answers).getD defaultRec with inp := v } s.answers }
    | .grade =>
      match get_current_id cfg s with
      | some i =>
        { s with
            answers := grade_rows i (rows_for_id cfg.rows i)
              (t - s.problem_start_time) (t - s.start_time) s.answers,
            graded := true }
      | none => s
    | .back => { s with phase := Phase.problem }
    | .to_explain => { s with phase := Phase.explain }
    | _ => s
  | .explain =>
    if s.current_id_idx + 1 < (cfg.available_ids.length : Int) then
      match a with
      | .next_problem =>
        { s with current_id_idx := s.current_id_idx + 1, problem_start_time := t,
                 phase := Phase.problem, graded := false }
      | _ => s
    else
      { s with phase := Phase.end_ }
  | .end_ =>
    match a with
    | .restart => initState t
    | .set_name v => { s with user_name := v }
    | _ => s

/-- The session states reachable from a fresh session through script runs. -/
inductive Reachable (cfg : QuizConfig) : SessState → Prop where
  | init (t : Int) : Reachable cfg (initState t)
  | tr {s : SessState} (h : Reachable cfg s) (t : Int) (a : UserAction) :
      Reachable cfg (step cfg s t a)

/-- Zero-pad to two digits, as `strftime` renders `%m %d %H %M %S`. -/
def pad2 (n : Nat) : String :=
  if n < 10 then "0" ++ toString n else toString n

/-- A wall-clock instant in Japan Standard Time, as decomposed by
`datetime.now(JST)`. -/
structure JstTime where
  year : Nat
  month : Nat
  day : Nat
  hour : Nat
  minute : Nat
  second : Nat
  deriving DecidableEq

/-- `strftime("%Y%m%d_%H%M%S")`. -/
def strftime_ymd_hms (t : JstTime) : String :=
  toString t.year ++ pad2 t.month ++ pad2 t.day ++ "_" ++
  pad2 t.hour ++ pad2 t.minute ++ pad2 t.second

/-- Minimal CSV quoting as `to_csv` writes a field. -/
def csv_field (s : String) : String :=
  if s.data.any (fun c => c = ',' || c = '"' || c = '\n' || c = '\r') then
    "\"" ++ pyReplace s "\"" "\"\"" ++ "\""
  else s

/-- One exported row (source lines 348–359): the key pair, the record fields,
and the two elapsed times rendered with `seconds_to_hms`. -/
def result_row_fields (k : String × String) (rec : AnsRec) : List String :=
  [k.1, k.2, rec.inp, rec.correct, rec.verdict,
   seconds_to_hms rec.per_sec, seconds_to_hms rec.total_sec, rec.level, rec.title]

/-- The CSV text produced by `df.to_csv(index=False)` over the answers
(source lines 360, 366): the fixed header then one line per record. -/
def results_csv (answers : List ((String × String) × AnsRec)) : String :=
  let header := "ID,小問,入力,正解,判定,経過時間,累計時間,難易度,タイトル"
  String.intercalate "\n"
    (header :: answers.map (fun e => String.intercalate "," ((result_row_fields e.1 e.2).map csv_field)))
  ++ "\n"

/-- The downloadable artifact offered by the End screen (source lines
363–368): `none` while the name field is empty; otherwise the timestamped
file name and the `utf-8-sig` bytes, i.e. the CSV text prefixed with a
byte-order mark. -/
def render_end_export (s : SessState) (ts : JstTime) : Option (String × String) :=
  if s.user_name = "" then none
  else
    some (s.user_name ++ "_結果_" ++ strftime_ymd_hms ts ++ ".csv",
          "\uFEFF" ++ results_csv s.answers)

/-- The `(path, encoding)` pairs in the order the loader tries them:
encoding-major over the prioritized path list. -/
def candidate_pairs (csv_paths : List String) : List (String × String) :=
  (encodings.map (fun e => (ordered_paths csv_paths).map (fun p => (p, e)))).flatten

/-- A two-problem configuration (no answer rows are needed to exercise the
navigation transitions). -/
def cfg2 : QuizConfig :=
  { rows := [], available_ids := [1, 2] }

/-- A CSV whose single row has the alphabetic ID `"abc"`. -/
def bad_id_rows : List CsvRow :=
  [{ title := .na, id := .str "abc", sub := .na, level := .na,
     answer := .na, video := .na }]

/-- Scenario data for the documented `3.0` asymmetry: the CSV row
`ID=7, 小問=1, 答え=3.0` (the answer cell holds the float `3.0`). -/
def scenario_row : CsvRow :=
  { title := .na, id := .int 7, sub := .int 1, level := .na,
    answer := .float 3 1, video := .na }

/-- The configuration loaded from the scenario row. -/
def scenario_cfg : QuizConfig :=
  { rows := [normalize_row scenario_row], available_ids := [7] }

/-- A solution-phase session for the scenario in which the user has typed `v`
into sub-question 1 of problem 7. -/
def scenario_state (v : String) : SessState :=
  { phase := Phase.solution, current_id_idx := 0, start_time := 0,
    problem_start_time := 0,
    answers := [(("7", "1"), { defaultRec with inp := v })],
    graded := false, user_name := "" }

/-- `dropWhile` is idempotent. -/
theorem dropWhile_dropWhile (p : Char → Bool) (l : List Char) :
    (l.dropWhile p).dropWhile p = l.dropWhile p := by
  induction l with
  | nil => rfl
  | cons a t ih =>
    by_cases h : p a <;> simp [List.dropWhile_cons, h, ih]

/-- `dropTrailWhile` is idempotent. -/
theorem dropTrailWhile_dropTrailWhile (p : Char → Bool) (l : List Char) :
    dropTrailWhile p (dropTrailWhile p l) = dropTrailWhile p l := by
  induction l with
  | nil => rfl
  | cons a t ih =>
    by_cases h1 : dropTrailWhile p t = []
    · by_cases h2 : p a <;> simp [dropTrailWhile, h1, h2]
    · have step1 : dropTrailWhile p (a :: t) = a :: dropTrailWhile p t := by
        simp [dropTrailWhile, h1]
      have step2 : dropTrailWhile p (a :: dropTrailWhile p t) =
          a :: dropTrailWhile p (dropTrailWhile p t) := by
        simp [dropTrailWhile, ih, h1]
      rw [step1, step2, ih]

/-- The head of a `dropWhile p` result does not satisfy `p`. -/
theorem dropWhile_head_false (p : Char → Bool) (l : List Char) :
    l.dropWhile p = [] ∨ ∃ a t, l.dropWhile p = a :: t ∧ p a = false := by
  induction l with
  | nil => exact Or.inl rfl
  | cons a t ih =>
    by_cases h : p a
    · simpa [List.dropWhile_cons, h] using ih
    · exact Or.inr ⟨a, t, by simp [List.dropWhile_cons, h], by simp [h]⟩

/-- Dropping leading `p`-characters is a no-op after `dropTrailWhile` when the
head already fails `p`. -/
theorem dropWhile_dropTrailWhile_of_head (p : Char → Bool) (l : List Char)
    (h : l = [] ∨ ∃ a t, l = a :: t ∧ p a = false) :
    (dropTrailWhile p l).dropWhile p = dropTrailWhile p l := by
  rcases h with h | ⟨a, t, rfl, ha⟩
  · subst h; rfl
  · simp only [dropTrailWhile]
    by_cases h1 : dropTrailWhile p t = [] <;>
      simp [h1, ha, List.dropWhile_cons]

/-- `stripChars` is idempotent. -/
theorem stripChars_stripChars (l : List Char) :
    stripChars (stripChars l) = stripChars l := by
  unfold stripChars
  rw [dropWhile_dropTrailWhile_of_head isPySpace (l.dropWhile isPySpace)
        (dropWhile_head_false isPySpace l),
      dropTrailWhile_dropTrailWhile]

/-- Python's `str.strip()` is idempotent. -/
theorem pyStrip_pyStrip (s : String) : pyStrip (pyStrip s) = pyStrip s := by
  unfold pyStrip
  exact congrArg String.mk (stripChars_stripChars s.data)

/-- Looking up a key in an association list is unaffected by filtering with a
predicate that keeps every entry bearing that key. -/
theorem lookup_filter_keep {κ α : Type} [BEq κ] [LawfulBEq κ] (j : κ)
    (q : κ × α → Bool) (hq : ∀ v, q (j, v) = true) (m : List (κ × α)) :
    List.lookup j (m.filter q) = List.lookup j m := by
  induction m with
  | nil => rfl
  | cons e rest ih =>
    obtain ⟨ek, ev⟩ := e
    by_cases hkeep : q (ek, ev) = true
    · rw [List.filter_cons, if_pos hkeep]
      by_cases hje : j == ek
      · simp [List.lookup, hje]
      · simp only [List.lookup, hje]
        exact ih
    · have hjek : (j == ek) = false := by
        by_cases hj : j = ek
        · exact absurd (hj ▸ hq ev) hkeep
        · simpa using hj
      rw [List.filter_cons, if_neg hkeep]
      simp only [List.lookup, hjek]
      exact ih

/-- Lookup after a dictionary assignment: the assigned key reads the new
value, every other key is untouched. -/
theorem lookup_dictInsert {κ α : Type} [BEq κ] [LawfulBEq κ] [DecidableEq κ]
    (j k : κ) (v : α) (m : List (κ × α)) :
    List.lookup j (dictInsert k v m) = if j = k then some v else List.lookup j m := by
  unfold dictInsert
  by_cases h : j = k
  · simp [List.lookup, h]
  · have hb : (j == k) = false := by simp [h]
    simp only [List.lookup, hb, if_neg h]
    exact lookup_filter_keep j _ (fun v => by simp [h]) m

/-- Keys outside the graded rows are untouched by the grading loop. -/
theorem grade_rows_lookup_of_not_mem (i : Nat) (rows : List NRow) (per total : Int)
    (answers : List ((String × String) × AnsRec)) (k : String × String)
    (hk : k ∉ rows.map (row_key i)) :
    List.lookup k (grade_rows i rows per total answers) = List.lookup k answers := by
  induction rows generalizing answers with
  | nil => rfl
  | cons r rest ih =>
    have hk1 : k ≠ row_key i r := by
      intro h
      exact hk (by simp [h])
    have hk2 : k ∉ rest.map (row_key i) := by
      intro h
      exact hk (by simp [h])
    unfold grade_rows at *
    rw [List.foldl_cons, ih _ hk2, lookup_dictInsert, if_neg hk1]

/-- The record stored for each graded row: the grading loop writes exactly
`graded_record` of the input that was stored before the loop ran (when the
row keys are pairwise distinct, as they are for well-formed answer keys). -/
theorem grade_rows_lookup_of_mem (i : Nat) (rows : List NRow) (per total : Int)
    (answers : List ((String × String) × AnsRec)) (r : NRow)
    (hmem : r ∈ rows) (hnodup : (rows.map (row_key i)).Nodup) :
    List.lookup (row_key i r) (grade_rows i rows per total answers) =
      some (graded_record r (stored_input answers (row_key i r)) per total) := by
  induction rows generalizing answers with
  | nil => cases hmem
  | cons r0 rest ih =>
    rw [List.map_cons, List.nodup_cons] at hnodup
    rcases List.mem_cons.mp hmem with rfl | hmem2
    · have hnot : row_key i r ∉ rest.map (row_key i) := hnodup.1
      unfold grade_rows
      rw [List.foldl_cons]
      have := grade_rows_lookup_of_not_mem i rest per total
        (dictInsert (row_key i r) (graded_record r (stored_input answers (row_key i r)) per total) answers)
        (row_key i r) hnot
      unfold grade_rows at this
      rw [this, lookup_dictInsert, if_pos rfl]
    · have hne : row_key i r ≠ row_key i r0 := by
        intro h
        exact hnodup.1 (h ▸ List.mem_map_of_mem (row_key i) hmem2)
      unfold grade_rows
      rw [List.foldl_cons]
      have ihx := ih (dictInsert (row_key i r0)
        (graded_record r0 (stored_input answers (row_key i r0)) per total) answers) hmem2 hnodup.2
      unfold grade_rows at ihx
      rw [ihx]
      unfold stored_input
      rw [lookup_dictInsert, if_neg hne]

/-- Re-grading a stored (already stripped) input changes only the two
elapsed-time fields, because `str.strip()` is idempotent. -/
theorem graded_record_restrip (r : NRow) (inp0 : String) (p1 t1 p2 t2 : Int) :
    graded_record r (pyStrip inp0) p2 t2 =
      { graded_record r inp0 p1 t1 with per_sec := p2, total_sec := t2 } := by
  unfold graded_record
  simp [pyStrip_pyStrip]

/-- The effect of the `採点` button in the solution phase, as one equation. -/
theorem step_grade_eq (cfg : QuizConfig) (s : SessState) (t : Int) (i : Nat)
    (hphase : s.phase = Phase.solution)
    (hid : get_current_id cfg s = some i) :
    step cfg s t UserAction.grade =
      { s with answers := grade_rows i (rows_for_id cfg.rows i)
                 (t - s.problem_start_time) (t - s.start_time) s.answers,
               graded := true } := by
  simp [step, hphase, hid]

/-- C1: for every sub-question row of the current problem id, grading stores a
verdict obtained by stripping whitespace from the user's stored input and from
the canonicalized correct answer and comparing the two strings for exact,
case-sensitive equality — `正解！` iff they are equal, with no numeric
parsing. In particular, for the answer cell holding the float `3.0`
(canonicalized to `"3"` at load), user input `"3"` grades correct and user
input `"3.0"` grades incorrect. -/
theorem claim_C1_grading (cfg : QuizConfig) (s : SessState) (t : Int) (i : Nat)
    (hphase : s.phase = Phase.solution)
    (hid : get_current_id cfg s = some i)
    (hkeys : ((rows_for_id cfg.rows i).map (row_key i)).Nodup) :
    (∀ r ∈ rows_for_id cfg.rows i,
      List.lookup (row_key i r) (step cfg s t UserAction.grade).answers =
        some (graded_record r (stored_input s.answers (row_key i r))
          (t - s.problem_start_time) (t - s.start_time)) ∧
      (graded_record r (stored_input s.answers (row_key i r))
          (t - s.problem_start_time) (t - s.start_time)).verdict =
        (if pyStrip (stored_input s.answers (row_key i r)) =
            pyStrip (as_str (.str r.answer)) then "正解！" else "不正解")) ∧
    (normalize_row scenario_row).answer = "3" ∧
    (List.lookup ("7", "1")
        (step scenario_cfg (scenario_state "3") 0 UserAction.grade).answers).map
      AnsRec.verdict = some "正解！" ∧
    (List.lookup ("7", "1")
        (step scenario_cfg (scenario_state "3.0") 0 UserAction.grade).answers).map
      AnsRec.verdict = some "不正解" := by
  refine ⟨?_, by decide, by decide, by decide⟩
  intro r hr
  rw [step_grade_eq cfg s t i hphase hid]
  refine ⟨grade_rows_lookup_of_mem i _ _ _ s.answers r hr hkeys, ?_⟩
  unfold graded_record
  rfl

/-- Witness for C1 at the concrete scenario configuration. -/
theorem claim_C1_grading_witness :
    List.lookup (row_key 7 (normalize_row scenario_row))
        (step scenario_cfg (scenario_state "3") 0 UserAction.grade).answers =
      some (graded_record (normalize_row scenario_row)
        (stored_input (scenario_state "3").answers (row_key 7 (normalize_row scenario_row)))
        (0 - (scenario_state "3").problem_start_time)
        (0 - (scenario_state "3").start_time)) :=
  ((claim_C1_grading scenario_cfg (scenario_state "3") 0 7 rfl (by decide) (by decide)).1
    (normalize_row scenario_row) (by decide)).1

/-- C4: grading twice in succession with unchanged stored input produces, for
every sub-question of the current problem id, records identical in every field
except the two elapsed-seconds fields, which re-snapshot to the time of the
second invocation. -/
theorem claim_C4_grading_idempotent (cfg : QuizConfig) (s : SessState) (t1 t2 : Int)
    (i : Nat)
    (hphase : s.phase = Phase.solution)
    (hid : get_current_id cfg s = some i)
    (hkeys : ((rows_for_id cfg.rows i).map (row_key i)).Nodup) :
    ∀ r ∈ rows_for_id cfg.rows i,
      ∃ rec1 rec2 : AnsRec,
        List.lookup (row_key i r) (step cfg s t1 UserAction.grade).answers = some rec1 ∧
        List.lookup (row_key i r)
          (step cfg (step cfg s t1 UserAction.grade) t2 UserAction.grade).answers = some rec2 ∧
        rec2 = { rec1 with per_sec := t2 - s.problem_start_time,
                           total_sec := t2 - s.start_time } := by
  intro r hr
  have e1 := step_grade_eq cfg s t1 i hphase hid
  have hid1 : get_current_id cfg (step cfg s t1 UserAction.grade) = some i := by
    rw [e1]
    simpa [get_current_id] using hid
  have e2 := step_grade_eq cfg (step cfg s t1 UserAction.grade) t2 i
    (by rw [e1]; exact hphase) hid1
  refine ⟨graded_record r (stored_input s.answers (row_key i r))
            (t1 - s.problem_start_time) (t1 - s.start_time),
          graded_record r (pyStrip (stored_input s.answers (row_key i r)))
            (t2 - s.problem_start_time) (t2 - s.start_time),
          ?_, ?_, ?_⟩
  · rw [e1]
    exact grade_rows_lookup_of_mem i _ _ _ s.answers r hr hkeys
  · rw [e2, e1]
    have hsi : stored_input
        (grade_rows i (rows_for_id cfg.rows i)
          (t1 - s.problem_start_time) (t1 - s.start_time) s.answers) (row_key i r) =
        pyStrip (stored_input s.answers (row_key i r)) := by
      unfold stored_input
      rw [grade_rows_lookup_of_mem i _ _ _ s.answers r hr hkeys]
      rfl
    have hlk := grade_rows_lookup_of_mem i (rows_for_id cfg.rows i)
      (t2 - s.problem_start_time) (t2 - s.start_time)
      (grade_rows i (rows_for_id cfg.rows i)
        (t1 - s.problem_start_time) (t1 - s.start_time) s.answers) r hr hkeys
    rw [hsi] at hlk
    exact hlk
  · exact graded_record_restrip r (stored_input s.answers (row_key i r))
      (t1 - s.problem_start_time) (t1 - s.start_time)
      (t2 - s.problem_start_time) (t2 - s.start_time)

/-- Witness for C4 at the concrete scenario configuration, with the raw input
`" 3 "` graded at times 5 and 9. -/
theorem claim_C4_grading_idempotent_witness :
    ∃ rec1 rec2 : AnsRec,
      List.lookup (row_key 7 (normalize_row scenario_row))
          (step scenario_cfg (scenario_state " 3 ") 5 UserAction.grade).answers = some rec1 ∧
      List.lookup (row_key 7 (normalize_row scenario_row))
          (step scenario_cfg (step scenario_cfg (scenario_state " 3 ") 5 UserAction.grade)
            9 UserAction.grade).answers = some rec2 ∧
      rec2 = { rec1 with per_sec := 9 - (scenario_state " 3 ").problem_start_time,
                         total_sec := 9 - (scenario_state " 3 ").start_time } :=
  claim_C4_grading_idempotent scenario_cfg (scenario_state " 3 ") 5 9 7 rfl
    (by decide) (by decide) (normalize_row scenario_row) (by decide)

/-- Every single step preserves the index bounds (the index moves only on the
advancing explain transition, guarded by the length test, and on restart,
which zeroes it). -/
theorem step_idx_bounds (cfg : QuizConfig) (hn : 0 < cfg.available_ids.length)
    (s : SessState) (t : Int) (a : UserAction)
    (h1 : 0 ≤ s.current_id_idx)
    (h2 : s.current_id_idx < (cfg.available_ids.length : Int)) :
    0 ≤ (step cfg s t a).current_id_idx ∧
      (step cfg s t a).current_id_idx < (cfg.available_ids.length : Int) := by
  unfold step
  cases hp : s.phase
  case problem =>
    cases a <;> exact ⟨h1, h2⟩
  case solution =>
    cases a <;> try exact ⟨h1, h2⟩
    case grade =>
      cases get_current_id cfg s <;> exact ⟨h1, h2⟩
  case explain =>
    by_cases hc : s.current_id_idx + 1 < (cfg.available_ids.length : Int)
    · rw [if_pos hc]
      cases a <;> try exact ⟨h1, h2⟩
      exact ⟨show (0:Int) ≤ s.current_id_idx + 1 by omega, hc⟩
    · rw [if_neg hc]
      cases a <;> exact ⟨h1, h2⟩
  case end_ =>
    cases a <;> try exact ⟨h1, h2⟩
    exact ⟨le_refl 0,
      show (0:Int) < (cfg.available_ids.length : Int) by exact_mod_cast hn⟩

/-- The index bounds hold in every reachable state. -/
theorem reachable_idx_bounds (cfg : QuizConfig) (hn : 0 < cfg.available_ids.length)
    {s : SessState} (hs : Reachable cfg s) :
    0 ≤ s.current_id_idx ∧ s.current_id_idx < (cfg.available_ids.length : Int) := by
  induction hs with
  | init t =>
    exact ⟨le_refl 0,
      show (0:Int) < (cfg.available_ids.length : Int) by exact_mod_cast hn⟩
  | tr h t a ih => exact step_idx_bounds cfg hn _ t a ih.1 ih.2

/-- C2: in every reachable session state the current index lies within
`[0, number_of_problem_ids)`, and requesting `next` from the Explain phase at
the last available id moves the machine to `End` without touching the index —
it neither increments past the last position nor wraps to 0 (`step` is a total
function, so no transition can throw). -/
theorem claim_C2_index_invariant (cfg : QuizConfig)
    (hn : 0 < cfg.available_ids.length) (s : SessState) (hs : Reachable cfg s) :
    (0 ≤ s.current_id_idx ∧ s.current_id_idx < (cfg.available_ids.length : Int)) ∧
    (∀ t : Int, s.phase = Phase.explain →
      ¬(s.current_id_idx + 1 < (cfg.available_ids.length : Int)) →
      step cfg s t UserAction.next_problem = { s with phase := Phase.end_ }) := by
  refine ⟨reachable_idx_bounds cfg hn hs, ?_⟩
  intro t hphase hlast
  simp [step, hphase, hlast]

/-- Witness for C2 at the reachable Explain state of the one-problem scenario
configuration. -/
theorem claim_C2_index_invariant_witness :
    (0 ≤ (step scenario_cfg (initState 0) 0 UserAction.skip).current_id_idx ∧
      (step scenario_cfg (initState 0) 0 UserAction.skip).current_id_idx <
        (scenario_cfg.available_ids.length : Int)) ∧
    step scenario_cfg (step scenario_cfg (initState 0) 0 UserAction.skip) 3
        UserAction.next_problem =
      { (step scenario_cfg (initState 0) 0 UserAction.skip) with phase := Phase.end_ } := by
  have h := claim_C2_index_invariant scenario_cfg (by decide)
    (step scenario_cfg (initState 0) 0 UserAction.skip)
    (Reachable.tr (Reachable.init 0) 0 UserAction.skip)
  exact ⟨h.1, h.2 3 (by decide) (by decide)⟩

/-- C5 (amended): `problem_start_time` is reset to the current time exactly on
the advancing Explain→Problem transition — which also increments the index and
clears `graded` — and on the full-session restart from `End`, which
re-initializes the entire state (including `problem_start_time`) to a fresh
session; no other transition or action changes it (in particular not grading,
not Solution→Problem, not Problem→Solution). -/
theorem claim_C5_problem_start_time (cfg : QuizConfig) (s : SessState) (t : Int)
    (a : UserAction) :
    (s.phase = Phase.explain → a = UserAction.next_problem →
      s.current_id_idx + 1 < (cfg.available_ids.length : Int) →
      step cfg s t a = { s with current_id_idx := s.current_id_idx + 1,
                                problem_start_time := t,
                                phase := Phase.problem, graded := false }) ∧
    ((step cfg s t a).problem_start_time ≠ s.problem_start_time →
      (s.phase = Phase.explain ∧ a = UserAction.next_problem ∧
        s.current_id_idx + 1 < (cfg.available_ids.length : Int) ∧
        (step cfg s t a).problem_start_time = t) ∨
      (s.phase = Phase.end_ ∧ a = UserAction.restart ∧
        step cfg s t a = initState t)) := by
  constructor
  · intro hp ha hc
    subst ha
    simp [step, hp, hc]
  · intro hch
    cases hp : s.phase
    case problem =>
      cases a <;> simp [step, hp] at hch
    case solution =>
      cases a <;> try simp [step, hp] at hch
      cases hg : get_current_id cfg s <;> simp [step, hp, hg] at hch
    case explain =>
      by_cases hc : s.current_id_idx + 1 < (cfg.available_ids.length : Int)
      · cases a <;> try simp [step, hp, if_pos hc] at hch
        exact Or.inl ⟨rfl, rfl, hc, by simp [step, hp, hc]⟩
      · cases a <;> simp [step, hp, if_neg hc] at hch
    case end_ =>
      cases a <;> try simp [step, hp] at hch
      exact Or.inr ⟨rfl, rfl, by simp [step, hp]⟩

/-- Counterexample to C5 as stated: along a concrete reachable trace, the
restart action from the `End` phase — which is not the advancing
Explain→Problem transition — also changes `problem_start_time` (the full
session reset re-initializes it to the current time). -/
theorem claim_C5_counterexample :
    (step scenario_cfg (step scenario_cfg (initState 0) 0 UserAction.skip) 0
        UserAction.idle).phase = Phase.end_ ∧
    (step scenario_cfg (step scenario_cfg (initState 0) 0 UserAction.skip) 0
        UserAction.idle).problem_start_time = 0 ∧
    (step scenario_cfg
        (step scenario_cfg (step scenario_cfg (initState 0) 0 UserAction.skip) 0
          UserAction.idle)
        1 UserAction.restart).problem_start_time = 1 := by
  decide

/-- Witness for the amended C5 at a concrete advancing transition. -/
theorem claim_C5_problem_start_time_witness :
    step cfg2 (step cfg2 (initState 0) 0 UserAction.skip) 4 UserAction.next_problem =
      { (step cfg2 (initState 0) 0 UserAction.skip) with
          current_id_idx := (step cfg2 (initState 0) 0 UserAction.skip).current_id_idx + 1,
          problem_start_time := 4, phase := Phase.problem, graded := false } :=
  (claim_C5_problem_start_time cfg2 (step cfg2 (initState 0) 0 UserAction.skip) 4
    UserAction.next_problem).1 (by decide) rfl (by decide)

/-- C6: `as_str` returns the empty string on missing input, the integer string
form (no trailing `".0"`) on a float with zero fractional part, and the
value's default string form otherwise. -/
theorem claim_C6_as_str :
    as_str .na = "" ∧
    (∀ (n : Int) (d : Nat), d = 1 → as_str (.float n d) = toString n) ∧
    as_str (.float 3 1) = "3" ∧
    as_str (.float (-2) 1) = "-2" ∧
    (∀ (n : Int) (d : Nat), d ≠ 1 → as_str (.float n d) = pyStr (.float n d)) ∧
    (∀ t : String, as_str (.str t) = pyStr (.str t)) ∧
    (∀ n : Int, as_str (.int n) = pyStr (.int n)) := by
  refine ⟨rfl, ?_, by decide, by decide, ?_, fun t => rfl, fun n => rfl⟩
  · intro n d hd
    subst hd
    simp [as_str, pd_isna]
  · intro n d hd
    simp [as_str, pd_isna, hd]

/-- Witness for C6 at the concrete float `3.0`. -/
theorem claim_C6_as_str_witness :
    as_str (.float 3 1) = toString (3 : Int) :=
  claim_C6_as_str.2.1 3 1 rfl

/-- C7: on a non-negative second count, `seconds_to_hms` renders components
that faithfully decompose the input (`H*3600 + M*60 + S = s` with `M, S < 60`),
the hour segment is omitted exactly when `s < 3600`, and the represented total
(`hms_total`) equals the input, hence is non-decreasing (arbitrary-precision
naturals: no overflow). -/
theorem claim_C7_seconds_to_hms (s : Nat) :
    hms_total s = s ∧
    (s % 3600) / 60 < 60 ∧ s % 60 < 60 ∧
    seconds_to_hms (s : Int) =
      (if 3600 ≤ s then
        toString (s / 3600) ++ "時間" ++ toString ((s % 3600) / 60) ++ "分" ++
          toString (s % 60) ++ "秒"
      else
        toString ((s % 3600) / 60) ++ "分" ++ toString (s % 60) ++ "秒") ∧
    (∀ s2 : Nat, s ≤ s2 → hms_total s ≤ hms_total s2) := by
  refine ⟨by unfold hms_total; omega, by omega, by omega, ?_, ?_⟩
  · have hmax : (max 0 (s : Int)).toNat = s := by omega
    by_cases h : 3600 ≤ s
    · have hdiv : s / 3600 ≠ 0 := by omega
      simp [seconds_to_hms, hmax, hdiv, h]
    · have hdiv : s / 3600 = 0 := by omega
      simp [seconds_to_hms, hmax, hdiv, h]
  · intro s2 h
    unfold hms_total
    omega

/-- Witness for C7: monotonicity instantiated at 3700 ≤ 3800. -/
theorem claim_C7_seconds_to_hms_witness :
    3700 ≤ 3800 ∧ hms_total 3700 ≤ hms_total 3800 :=
  ⟨by decide, (claim_C7_seconds_to_hms 3700).2.2.2.2 3800 (by decide)⟩

/-- The inner loop returns the first success among one encoding's pairs. -/
theorem try_paths_eq_find (parses : String → String → Bool) (enc : String)
    (paths : List String) :
    try_paths parses enc paths =
      (paths.map (fun p => (p, enc))).find? (fun pe => parses pe.1 pe.2) := by
  induction paths with
  | nil => rfl
  | cons p rest ih =>
    by_cases h : parses p enc <;> simp [try_paths, h, List.find?_cons, ih]

/-- The nested loops return the first success over all candidate pairs. -/
theorem try_encodings_eq_find (parses : String → String → Bool) (paths : List String)
    (encs : List String) :
    try_encodings parses paths encs =
      ((encs.map (fun e => paths.map (fun p => (p, e)))).flatten).find?
        (fun pe => parses pe.1 pe.2) := by
  induction encs with
  | nil => rfl
  | cons e rest ih =>
    simp only [List.map_cons, List.flatten_cons, List.find?_append,
      ← try_paths_eq_find parses e paths, ← ih]
    simp only [try_encodings]
    cases try_paths parses e paths <;> rfl

/-- The inner loop fails exactly when every path fails under that encoding. -/
theorem try_paths_eq_none_iff (parses : String → String → Bool) (enc : String)
    (paths : List String) :
    try_paths parses enc paths = none ↔ ∀ p ∈ paths, parses p enc = false := by
  induction paths with
  | nil => simp [try_paths]
  | cons p rest ih =>
    by_cases h : parses p enc <;> simp [try_paths, h, ih]

/-- The nested loops fail exactly when every combination fails. -/
theorem try_encodings_eq_none_iff (parses : String → String → Bool)
    (paths : List String) (encs : List String) :
    try_encodings parses paths encs = none ↔
      ∀ e ∈ encs, ∀ p ∈ paths, parses p e = false := by
  induction encs with
  | nil => simp [try_encodings]
  | cons e rest ih =>
    simp only [try_encodings]
    cases h : try_paths parses e paths with
    | none =>
      have h1 := (try_paths_eq_none_iff parses e paths).mp h
      rw [show (match (none : Option (String × String)) with
            | some r => some r
            | none => try_encodings parses paths rest) = try_encodings parses paths rest
          from rfl,
        ih, List.forall_mem_cons]
      exact ⟨fun h2 => ⟨h1, h2⟩, fun h2 => h2.2⟩
    | some r =>
      rw [show (match (some r : Option (String × String)) with
            | some r => some r
            | none => try_encodings parses paths rest) = some r from rfl,
        List.forall_mem_cons]
      constructor
      · intro hc
        cases hc
      · rintro ⟨h1, -⟩
        have h2 := (try_paths_eq_none_iff parses e paths).mpr h1
        rw [h] at h2
        cases h2

/-- C3: the loader tries the encodings in the fixed order utf-8-sig, utf-8,
cp932, shift-jis over the candidate paths (answer-key-named paths first),
returns the first `(path, encoding)` whose parse does not raise, returns
`none` when every combination fails, and a `none` result halts the session
with a user-visible error message instead of crashing. -/
theorem claim_C3_loader (parses : String → String → Bool) (csv_paths : List String) :
    load_answer_csv parses csv_paths =
      (candidate_pairs csv_paths).find? (fun pe => parses pe.1 pe.2) ∧
    (load_answer_csv parses csv_paths = none ↔
      ∀ e ∈ encodings, ∀ p ∈ ordered_paths csv_paths, parses p e = false) ∧
    (∀ p, p ∈ ordered_paths csv_paths ↔ p ∈ csv_paths) ∧
    (load_answer_csv parses csv_paths = none →
      load_answer_csv_or_stop parses csv_paths =
        Except.error "CSVファイルが見つかりません（例：数学解答_見本.csv）。") := by
  refine ⟨try_encodings_eq_find parses (ordered_paths csv_paths) encodings,
    try_encodings_eq_none_iff parses (ordered_paths csv_paths) encodings, ?_, ?_⟩
  · intro p
    simp only [ordered_paths, List.mem_append, List.mem_filter]
    by_cases h : is_answer_key_name p <;> simp [h]
  · intro h
    unfold load_answer_csv_or_stop
    rw [h]

/-- Witness for C3: with no parser succeeding, the loader returns `none` and
the session halts with the error message. -/
theorem claim_C3_loader_witness :
    load_answer_csv (fun _ _ => false) ["b.csv"] = none ∧
    load_answer_csv_or_stop (fun _ _ => false) ["b.csv"] =
      Except.error "CSVファイルが見つかりません（例：数学解答_見本.csv）。" :=
  ⟨by decide,
    (claim_C3_loader (fun _ _ => false) ["b.csv"]).2.2.2 (by decide)⟩

/-- `getLast?` of a cons, phrased with `Option.or`. -/
theorem getLast?_cons_or {α : Type} (a : α) (l : List α) :
    (a :: l).getLast? = l.getLast?.or (some a) := by
  cases l with
  | nil => rfl
  | cons b t =>
    rw [List.getLast?_cons_cons]
    have hs : (b :: t).getLast?.isSome := by
      rw [List.getLast?_isSome]
      simp
    obtain ⟨x, hx⟩ := Option.isSome_iff_exists.mp hs
    rw [hx]
    rfl

/-- When the stem is not `問題`-prefixed, the problem map is untouched. -/
theorem resolve_step_fst_of_not_problem (acc : List (Int × String) × List (Int × String))
    (p : String) (hpb : ¬ pyStartsWith (pyStem p) "問題" = true) :
    (resolve_step acc p).1 = acc.1 := by
  unfold resolve_step
  rw [if_neg hpb]
  by_cases hc2 : (pyStartsWith (pyStem p) "解答" || pyStartsWith (pyStem p) "解説") = true
  · rw [if_pos hc2]
    cases pyIntOfString (pyReplace (pyReplace (pyStem p) "解答" "") "解説" "") <;> rfl
  · rw [if_neg hc2]

/-- When the stem is `問題`-prefixed, the solution map is untouched. -/
theorem resolve_step_snd_of_problem (acc : List (Int × String) × List (Int × String))
    (p : String) (hpb : pyStartsWith (pyStem p) "問題" = true) :
    (resolve_step acc p).2 = acc.2 := by
  unfold resolve_step
  rw [if_pos hpb]
  cases pyIntOfString (pyReplace (pyStem p) "問題" "") <;> rfl

/-- The problem map built by the classification fold: looking up an id returns
the last scanned file classified as a problem asset for that id, falling back
to the accumulator. -/
theorem build_fold_fst (k : Int) :
    ∀ (ps : List String) (acc : List (Int × String) × List (Int × String)),
      List.lookup k (ps.foldl resolve_step acc).1 =
        ((ps.filter (is_problem_asset k)).getLast?).or (List.lookup k acc.1) := by
  intro ps
  induction ps with
  | nil =>
    intro acc
    simp
  | cons p rest ih =>
    intro acc
    rw [List.foldl_cons, ih (resolve_step acc p), List.filter_cons]
    by_cases hpb : pyStartsWith (pyStem p) "問題" = true
    · cases hparse : pyIntOfString (pyReplace (pyStem p) "問題" "") with
      | some j =>
        have hstep : resolve_step acc p = (dictInsert j p acc.1, acc.2) := by
          unfold resolve_step
          rw [if_pos hpb, hparse]
        rw [hstep]
        by_cases hk : is_problem_asset k p = true
        · have hjk : j = k := by
            unfold is_problem_asset at hk
            rw [hparse, hpb] at hk
            simpa using hk
          subst hjk
          rw [if_pos hk, getLast?_cons_or, Option.or_assoc, lookup_dictInsert, if_pos rfl]
          rfl
        · have hjk : ¬ k = j := by
            intro hkj
            apply hk
            unfold is_problem_asset
            rw [hparse, hpb, hkj]
            simp
          rw [if_neg hk, lookup_dictInsert, if_neg hjk]
      | none =>
        have hstep : resolve_step acc p = acc := by
          unfold resolve_step
          rw [if_pos hpb, hparse]
        have hk : ¬ is_problem_asset k p = true := by
          unfold is_problem_asset
          rw [hparse, hpb]
          simp
        rw [hstep, if_neg hk]
    · have hk : ¬ is_problem_asset k p = true := by
        unfold is_problem_asset
        intro hcontra
        rw [Bool.and_eq_true] at hcontra
        exact hpb hcontra.1
      rw [if_neg hk, resolve_step_fst_of_not_problem acc p hpb]

/-- The solution map built by the classification fold: looking up an id
returns the last scanned file classified as a solution asset for that id,
falling back to the accumulator. -/
theorem build_fold_snd (k : Int) :
    ∀ (ps : List String) (acc : List (Int × String) × List (Int × String)),
      List.lookup k (ps.foldl resolve_step acc).2 =
        ((ps.filter (is_solution_asset k)).getLast?).or (List.lookup k acc.2) := by
  intro ps
  induction ps with
  | nil =>
    intro acc
    simp
  | cons p rest ih =>
    intro acc
    rw [List.foldl_cons, ih (resolve_step acc p), List.filter_cons]
    by_cases hpb : pyStartsWith (pyStem p) "問題" = true
    · have hk : ¬ is_solution_asset k p = true := by
        unfold is_solution_asset
        rw [hpb]
        simp
      rw [if_neg hk, resolve_step_snd_of_problem acc p hpb]
    · by_cases hc2 : (pyStartsWith (pyStem p) "解答" || pyStartsWith (pyStem p) "解説") = true
      · cases hparse : pyIntOfString (pyReplace (pyReplace (pyStem p) "解答" "") "解説" "") with
        | some j =>
          have hstep : resolve_step acc p = (acc.1, dictInsert j p acc.2) := by
            unfold resolve_step
            rw [if_neg hpb, if_pos hc2, hparse]
          rw [hstep]
          by_cases hk : is_solution_asset k p = true
          · have hjk : j = k := by
              unfold is_solution_asset at hk
              rw [hparse, hc2] at hk
              simp [hpb] at hk
              simpa using hk
            subst hjk
            rw [if_pos hk, getLast?_cons_or, Option.or_assoc, lookup_dictInsert, if_pos rfl]
            rfl
          · have hjk : ¬ k = j := by
              intro hkj
              apply hk
              unfold is_solution_asset
              rw [hparse, hc2, hkj]
              simp [hpb]
            rw [if_neg hk, lookup_dictInsert, if_neg hjk]
        | none =>
          have hstep : resolve_step acc p = acc := by
            unfold resolve_step
            rw [if_neg hpb, if_pos hc2, hparse]
          have hk : ¬ is_solution_asset k p = true := by
            unfold is_solution_asset
            rw [hparse]
            simp
          rw [hstep, if_neg hk]
      · have hstep : resolve_step acc p = acc := by
          unfold resolve_step
          rw [if_neg hpb, if_neg hc2]
        have hk : ¬ is_solution_asset k p = true := by
          unfold is_solution_asset
          rw [Bool.and_eq_true, Bool.and_eq_true]
          rintro ⟨⟨-, hb⟩, -⟩
          exact hc2 hb
        rw [hstep, if_neg hk]

/-- C8 (amended): the resolver scans the working directory non-recursively
for files with the image extensions `.png`, `.jpg`, `.jpeg`, classifies each
scanned file by stem prefix into the problem map (`問題`) or the solution map
(`解答`/`解説`), keys it by `int` of the stem with the prefix tokens removed,
silently ignores — without raising — every file whose remainder does not parse
as an integer or whose prefix matches neither class, and when two files map to
the same (role, id) the one listed later wins (the lookup returns the last
matching file in scan order). -/
theorem claim_C8_asset_resolver (dir : List String) (k : Int) :
    List.lookup k (problem_paths_of dir) =
      ((image_paths_of dir).filter (is_problem_asset k)).getLast? ∧
    List.lookup k (solution_paths_of dir) =
      ((image_paths_of dir).filter (is_solution_asset k)).getLast? ∧
    image_paths_of dir = find_files dir [".png", ".jpg", ".jpeg"] := by
  refine ⟨?_, ?_, rfl⟩
  · unfold problem_paths_of build_asset_maps
    rw [build_fold_fst k (image_paths_of dir) ([], [])]
    simp
  · unfold solution_paths_of build_asset_maps
    rw [build_fold_snd k (image_paths_of dir) ([], [])]
    simp

/-- Counterexample to C8 as stated: a PDF file whose name is problem-classified
per the claim (`問題` prefix, integer remainder 5) is NOT scanned — the source
globs only `.png`, `.jpg`, `.jpeg` for display assets (line 114) — so the
problem map stays empty, while the same name with a `.png` extension is
resolved. -/
theorem claim_C8_counterexample :
    pyEndsWith "問題5.pdf" ".pdf" = true ∧
    is_problem_asset 5 "問題5.pdf" = true ∧
    image_paths_of ["問題5.pdf"] = [] ∧
    List.lookup 5 (problem_paths_of ["問題5.pdf"]) = none ∧
    List.lookup 5 (problem_paths_of ["問題5.png"]) = some "問題5.png" := by
  decide

/-- C9: while the user-name field is empty the End screen offers no CSV
artifact; with a non-empty name it offers exactly one download whose file name
is the name followed by `_結果_` and the JST `YYYYMMDD_HHMMSS` timestamp, and
whose bytes are the results CSV prefixed with the UTF-8 byte-order mark. -/
theorem claim_C9_export (s : SessState) (ts : JstTime) :
    (s.user_name = "" → render_end_export s ts = none) ∧
    (s.user_name ≠ "" →
      render_end_export s ts =
        some (s.user_name ++ "_結果_" ++ strftime_ymd_hms ts ++ ".csv",
          "\uFEFF" ++ results_csv s.answers) ∧
      ∀ fn data, render_end_export s ts = some (fn, data) →
        pyStartsWith data "\uFEFF" = true) := by
  constructor
  · intro h
    unfold render_end_export
    rw [if_pos h]
  · intro h
    have he : render_end_export s ts =
        some (s.user_name ++ "_結果_" ++ strftime_ymd_hms ts ++ ".csv",
          "\uFEFF" ++ results_csv s.answers) := by
      unfold render_end_export
      rw [if_neg h]
    refine ⟨he, ?_⟩
    intro fn data hfd
    rw [he] at hfd
    have hdata : data = "\uFEFF" ++ results_csv s.answers := by
      cases hfd
      rfl
    subst hdata
    unfold pyStartsWith
    rw [String.data_append]
    show listStartsWith ('\uFEFF' :: (results_csv s.answers).data) ['\uFEFF'] = true
    simp [listStartsWith]

/-- Witness for C9 at a concrete name and timestamp. -/
theorem claim_C9_export_witness :
    ("田中" : String) ≠ "" ∧
    render_end_export { initState 0 with user_name := "田中" } ⟨2026, 1, 2, 3, 4, 5⟩ =
      some (({ initState 0 with user_name := "田中" } : SessState).user_name ++ "_結果_" ++
          strftime_ymd_hms ⟨2026, 1, 2, 3, 4, 5⟩ ++ ".csv",
        "\uFEFF" ++ results_csv ({ initState 0 with user_name := "田中" } : SessState).answers) :=
  ⟨by decide,
    ((claim_C9_export { initState 0 with user_name := "田中" } ⟨2026, 1, 2, 3, 4, 5⟩).2
      (by decide)).1⟩

/-- Membership in a sorted-insert. -/
theorem mem_insertNatSorted (m n : Nat) (l : List Nat) :
    m ∈ insertNatSorted n l ↔ m = n ∨ m ∈ l := by
  induction l with
  | nil => simp [insertNatSorted]
  | cons x t ih =>
    unfold insertNatSorted
    by_cases h1 : n < x
    · rw [if_pos h1]
      simp [List.mem_cons]
    · rw [if_neg h1]
      by_cases h2 : n = x
      · rw [if_pos h2]
        subst h2
        simp [List.mem_cons]
      · rw [if_neg h2]
        simp [List.mem_cons, ih]
        tauto

/-- `sorted(set(...))` has the same members as the input list. -/
theorem mem_sortedDedup (m : Nat) (l : List Nat) :
    m ∈ sortedDedup l ↔ m ∈ l := by
  induction l with
  | nil => simp [sortedDedup]
  | cons x t ih =>
    unfold sortedDedup at ih ⊢
    rw [List.foldr_cons, mem_insertNatSorted, ih]
    simp

/-- C10: the available problem ids are exactly the integer values of the ID
cells whose `astype(str)` coercion is an all-digit string — rows with a
non-digit ID (negative, fractional, alphabetic, or missing) contribute
nothing — and when no row qualifies the session halts with a user-visible
error instead of crashing. -/
theorem claim_C10_available_ids (rows : List CsvRow) :
    (∀ n : Nat, n ∈ available_ids_of rows ↔
      ∃ r ∈ rows, str_isdigit (pyStr r.id) = true ∧ digitsVal (pyStr r.id).data = n) ∧
    (available_ids_of rows = [] → ids_or_stop rows = Except.error "CSVのIDが不正です。") ∧
    (available_ids_of rows ≠ [] → ids_or_stop rows = Except.ok (available_ids_of rows)) := by
  refine ⟨?_, ?_, ?_⟩
  · intro n
    unfold available_ids_of id_strings
    rw [mem_sortedDedup]
    simp only [List.mem_map, List.mem_filter]
    constructor
    · rintro ⟨s, ⟨⟨r, hr, rfl⟩, hdig⟩, hval⟩
      exact ⟨r, hr, hdig, hval⟩
    · rintro ⟨r, hr, hdig, hval⟩
      exact ⟨pyStr r.id, ⟨⟨r, hr, rfl⟩, hdig⟩, hval⟩
  · intro h
    unfold ids_or_stop
    rw [if_pos h]
  · intro h
    unfold ids_or_stop
    rw [if_neg h]

/-- Witness for C10: with no all-digit ID, the list is empty and the session
halts with the error. -/
theorem claim_C10_available_ids_witness :
    available_ids_of bad_id_rows = [] ∧
    ids_or_stop bad_id_rows = Except.error "CSVのIDが不正です。" :=
  ⟨by decide, (claim_C10_available_ids bad_id_rows).2.1 (by decide)⟩
